import Mathlib

/-!
Verification of the pixel-transform engine of `src/main.rs` (image
monochrome / palette / dithering converter).

The source is a small Rust program operating on `image::RgbImage`, an
in-memory mutable grid of 8-bit RGB pixels.  We shallowly embed the three
transform functions `modify_image_seuil`, `modify_image_palette` and
`modify_image_dithering` over an explicit raster type.

Arithmetic notes justifying the integer embedding of the `f64` arithmetic
used by the source (all quantities involved are small integers or dyadic
rationals that `f64` represents exactly, so every operation below is exact,
bit-for-bit, in IEEE double precision):

* Dithering classification: `avg_color = (r + g + b) / 3.0` with
  `r, g, b ≤ 255`.  The sum is an integer `s ≤ 765`, exactly representable;
  `s / 3.0 > 128.0` holds iff the exact rational `s / 3 > 128`, i.e. iff
  `384 < s` (rounding the quotient to nearest cannot cross the boundary
  `128.0` because `384 / 3.0` is exactly `128.0` and division is correctly
  rounded and monotone).
* Error diffusion: `neighbor + error * k / 16.0` for `k ∈ {7,3,5,1}` is a
  dyadic rational with denominator 16 and magnitude < 2^12, hence exact in
  `f64`.  We therefore carry the value scaled by 16 as an integer.
* Rust `expr as u8` on an `f64` (Rust ≥ 1.45) truncates toward zero and
  then SATURATES to the bounds of `u8` (values below 0 give 0, above 255
  give 255); it does not wrap.
* Palette distances: sums of three squares of integers ≤ 255, at most
  195075, exactly representable; `f64` comparisons on them are exact.
-/

/-- An 8-bit RGB pixel (`image::Rgb<u8>` in the source).  Channels are
modelled as `Nat`; every value the program stores is ≤ 255. -/
structure Rgb where
  r : Nat
  g : Nat
  b : Nat
deriving DecidableEq, Repr

/-- `const WHITE: Rgb<u8> = Rgb([255, 255, 255]);` -/
def WHITE : Rgb := ⟨255, 255, 255⟩

/-- `const GREY: Rgb<u8> = Rgb([127, 127, 127]);` -/
def GREY : Rgb := ⟨127, 127, 127⟩

/-- `const BLACK: Rgb<u8> = Rgb([0, 0, 0]);` -/
def BLACK : Rgb := ⟨0, 0, 0⟩

/-- `const BLUE: Rgb<u8> = Rgb([0, 0, 255]);` -/
def BLUE : Rgb := ⟨0, 0, 255⟩

/-- `const RED: Rgb<u8> = Rgb([255, 0, 0]);` -/
def RED : Rgb := ⟨255, 0, 0⟩

/-- `const GREEN: Rgb<u8> = Rgb([0, 255, 0]);` -/
def GREEN : Rgb := ⟨0, 255, 0⟩

/-- `const YELLOW: Rgb<u8> = Rgb([255, 255, 0]);` -/
def YELLOW : Rgb := ⟨255, 255, 0⟩

/-- `const MAGENTA: Rgb<u8> = Rgb([255, 0, 255]);` -/
def MAGENTA : Rgb := ⟨255, 0, 255⟩

/-- `const CYAN: Rgb<u8> = Rgb([0, 255, 255]);` -/
def CYAN : Rgb := ⟨0, 255, 255⟩

/-- An in-memory RGB raster (`image::RgbImage`): a width, a height, and a
pixel at every coordinate.  Coordinates outside `[0,width) × [0,height)`
are never accessed by the embedded program (`get_pixel` / `put_pixel`
would panic there in Rust; the checked variants below model that). -/
structure RgbImage where
  width : Nat
  height : Nat
  px : Nat → Nat → Rgb

/-- `img.get_pixel(x, y)` (unchecked model). -/
def RgbImage.get_pixel (img : RgbImage) (x y : Nat) : Rgb := img.px x y

/-- `img.put_pixel(x, y, p)` (unchecked model): pointwise update. -/
def RgbImage.put_pixel (img : RgbImage) (x y : Nat) (p : Rgb) : RgbImage :=
  { img with px := fun a b => if a = x ∧ b = y then p else img.px a b }

@[simp] theorem width_put_pixel (img : RgbImage) (x y : Nat) (p : Rgb) :
    (img.put_pixel x y p).width = img.width := rfl

@[simp] theorem height_put_pixel (img : RgbImage) (x y : Nat) (p : Rgb) :
    (img.put_pixel x y p).height = img.height := rfl

theorem get_put_pixel (img : RgbImage) (x y : Nat) (p : Rgb) (a b : Nat) :
    (img.put_pixel x y p).get_pixel a b =
      if a = x ∧ b = y then p else img.get_pixel a b := rfl

theorem RgbImage.eq_of_fields (r s : RgbImage) (hw : r.width = s.width)
    (hh : r.height = s.height) (hp : ∀ a b, r.px a b = s.px a b) : r = s := by
  cases r; cases s
  simp only [RgbImage.mk.injEq]
  exact ⟨hw, hh, funext fun a => funext fun b => hp a b⟩

/-- Bounds-checked `get_pixel`: `none` models the Rust panic on an
out-of-bounds access. -/
def RgbImage.get_pixel_checked (img : RgbImage) (x y : Nat) : Option Rgb :=
  if x < img.width ∧ y < img.height then some (img.px x y) else none

/-- Bounds-checked `put_pixel`: `none` models the Rust panic on an
out-of-bounds access. -/
def RgbImage.put_pixel_checked (img : RgbImage) (x y : Nat) (p : Rgb) :
    Option RgbImage :=
  if x < img.width ∧ y < img.height then some (img.put_pixel x y p) else none

/-! ## Threshold transform (`modify_image_seuil`, src/main.rs lines 65-78) -/

/-- Luma of an RGB pixel as computed by the image crate's
`Pixel::to_luma` for `Rgb<u8>`: the integer Rec.709 weighting
`(2126 * r + 7152 * g + 722 * b) / 10000` (constants `SRGB_LUMA` and
`SRGB_LUMA_DIV` in the crate's `color.rs`; the intermediate product fits
in `u32` and the quotient is ≤ 255, so the final clamp is a no-op).  The
crate is the external collaborator the spec delegates luminance to. -/
def to_luma (p : Rgb) : Nat := (2126 * p.r + 7152 * p.g + 722 * p.b) / 10000

/-- The per-pixel classification of the threshold transform:
`if luminosite_[0] > 127 { WHITE } else { BLACK }`. -/
def seuilPixel (p : Rgb) : Rgb := if 127 < to_luma p then WHITE else BLACK

/-- One iteration of a per-pixel loop body: read the pixel at `(x, y)`,
apply `f`, write the result back.  Both the threshold and the palette
transforms have exactly this body. -/
def mapPixelAt (f : Rgb → Rgb) (img : RgbImage) (x y : Nat) : RgbImage :=
  img.put_pixel x y (f (img.get_pixel x y))

/-- The shared double loop `for x in 0..width { for y in 0..height { ... } }`
of the threshold and palette transforms (column-major: `x` is the outer
loop in the source). -/
def pixelMapCore (f : Rgb → Rgb) (img : RgbImage) : RgbImage :=
  (List.range img.width).foldl
    (fun im x => (List.range img.height).foldl (fun im2 y => mapPixelAt f im2 x y) im)
    img

/-- Loop body of `modify_image_seuil` applied to the whole raster. -/
def seuilCore (img : RgbImage) : RgbImage := pixelMapCore seuilPixel img

/-- `modify_image_seuil` (src/main.rs lines 65-78).  The Rust function
returns `Result<RgbImage, ImageError>` but its body has no error path;
it always returns `Ok` of the transformed raster. -/
def modify_image_seuil (img : RgbImage) : Except String RgbImage :=
  Except.ok (seuilCore img)

/-! ## Palette transform (`modify_image_palette`, src/main.rs lines 80-109) -/

/-- The palette registry, in declaration order (src/main.rs line 84):
`vec![BLACK, GREY, WHITE, RED, GREEN, BLUE, YELLOW, CYAN, MAGENTA]`. -/
def palette_registry : List Rgb :=
  [BLACK, GREY, WHITE, RED, GREEN, BLUE, YELLOW, CYAN, MAGENTA]

/-- The active palette: `n_couleurs` is clamped to the registry size and
the registry is truncated to its first `n_couleurs` entries
(`n_couleurs.min(palette.len())` then `drain(0..n_couleurs)`). -/
def activePalette (n : Nat) : List Rgb :=
  palette_registry.take (min n palette_registry.length)

/-- Squared Euclidean RGB distance, src/main.rs line 98.  The `f64`
computation is exact on these integer inputs, so we use `Int`. -/
def distance (c p : Rgb) : Int :=
  ((c.r : Int) - (p.r : Int)) ^ 2 + ((c.g : Int) - (p.g : Int)) ^ 2 +
    ((c.b : Int) - (p.b : Int)) ^ 2

/-- One iteration of the nearest-color scan (src/main.rs lines 97-103).
The state is `(best_distance, best_color)`; `none` models the initial
`f64::INFINITY`, which every finite distance compares strictly below.
The comparison is the source's strict `distance < best_distance`. -/
def bestColorStep (p : Rgb) (st : Option Int × Rgb) (c : Rgb) : Option Int × Rgb :=
  let d := distance c p
  match st.1 with
  | none => (some d, c)
  | some bd => if d < bd then (some d, c) else st

/-- The nearest active-palette color to `p`, with `best_color`
initialised to `BLACK` (src/main.rs line 96). -/
def bestColor (pal : List Rgb) (p : Rgb) : Rgb :=
  (pal.foldl (bestColorStep p) (none, BLACK)).2

/-- Loop body of `modify_image_palette` applied to the whole raster. -/
def paletteCore (img : RgbImage) (n : Nat) : RgbImage :=
  pixelMapCore (bestColor (activePalette n)) img

/-- `modify_image_palette` (src/main.rs lines 80-109).  No validation of
`n_couleurs` is performed; the body always returns `Ok`. -/
def modify_image_palette (img : RgbImage) (n : Nat) : Except String RgbImage :=
  Except.ok (paletteCore img n)

/-! ## Dithering transform (`modify_image_dithering`, src/main.rs lines 111-157) -/

/-- Rust `v as u8` applied to the exactly-represented `f64` value
`v / 16` (all diffused values have denominator 16): truncation toward
zero followed by saturation to `[0, 255]` (Rust float-to-int `as` casts
saturate since Rust 1.45; they do not wrap).  For `v < 0` we have
`v.toNat = 0` and truncation toward zero lands at 0 through the
saturating lower bound, so the single formula below covers all cases. -/
def castU8of16 (v : Int) : Nat := min (v.toNat / 16) 255

/-- Classification of the dithering transform (src/main.rs lines 117-118):
`avg_color > 128.0` with `avg_color = (r + g + b) / 3.0`, which on exact
`f64` arithmetic is `384 < r + g + b`. -/
def newColorOf (p : Rgb) : Rgb :=
  if 384 < p.r + p.g + p.b then WHITE else BLACK

/-- The per-channel quantization error `pixel - new_color`
(src/main.rs lines 120-124), a signed triple. -/
def errOf (p q : Rgb) : Int × Int × Int :=
  ((p.r : Int) - (q.r : Int), (p.g : Int) - (q.g : Int), (p.b : Int) - (q.b : Int))

/-- `neighbor[i] = (neighbor[i] as f64 + error[i] * k / 16.0) as u8` on all
three channels, carried as integers scaled by 16. -/
def addErr (p : Rgb) (e : Int × Int × Int) (k : Int) : Rgb :=
  ⟨castU8of16 (16 * (p.r : Int) + e.1 * k),
   castU8of16 (16 * (p.g : Int) + e.2.1 * k),
   castU8of16 (16 * (p.b : Int) + e.2.2 * k)⟩

/-- One guarded diffusion block of the source (e.g. src/main.rs lines
129-134): `get_pixel_mut` on the neighbor at `(u, v)` followed by the
three channel assignments, i.e. read-add-write with weight `k/16`. -/
def diffuseAt (img : RgbImage) (e : Int × Int × Int) (k : Int) (u v : Nat) : RgbImage :=
  img.put_pixel u v (addErr (img.get_pixel u v) e k)

/-- The loop body of `modify_image_dithering` at pixel `(x, y)`
(src/main.rs lines 116-152): classify, write the new color, then the four
guarded Floyd-Steinberg diffusion writes in source order (weights
7/16 to `(x+1, y)`, 3/16 to `(x-1, y+1)`, 5/16 to `(x, y+1)`,
1/16 to `(x+1, y+1)`). -/
def ditherStep (w h : Nat) (img : RgbImage) (x y : Nat) : RgbImage :=
  let p := img.get_pixel x y
  let nc := newColorOf p
  let e := errOf p nc
  let i1 := img.put_pixel x y nc
  let i2 := if x + 1 < w then diffuseAt i1 e 7 (x + 1) y else i1
  let i3 := if 0 < x ∧ y + 1 < h then diffuseAt i2 e 3 (x - 1) (y + 1) else i2
  let i4 := if y + 1 < h then diffuseAt i3 e 5 x (y + 1) else i3
  if x + 1 < w ∧ y + 1 < h then diffuseAt i4 e 1 (x + 1) (y + 1) else i4

/-- The inner loop `for x in 0..width` of the dithering transform at row `y`. -/
def ditherRow (w h : Nat) (img : RgbImage) (y : Nat) : RgbImage :=
  (List.range w).foldl (fun im x => ditherStep w h im x y) img

/-- The double loop `for y in 0..height { for x in 0..width { ... } }` of
the dithering transform (row-major: `y` is the outer loop). -/
def ditherCore (img : RgbImage) : RgbImage :=
  (List.range img.height).foldl
    (fun im y => ditherRow img.width img.height im y) img

/-- `modify_image_dithering` (src/main.rs lines 111-157); the body always
returns `Ok`. -/
def modify_image_dithering (img : RgbImage) : Except String RgbImage :=
  Except.ok (ditherCore img)

/-! ### Bounds-checked dithering (for the crash-freedom claim)

Same algorithm, but every `get_pixel` / `put_pixel` goes through the
checked accessors; `none` models a Rust panic. -/

/-- Bounds-checked version of `ditherStep`. -/
def ditherStepChecked (w h : Nat) (img : RgbImage) (x y : Nat) : Option RgbImage :=
  (img.get_pixel_checked x y).bind fun p =>
    let nc := newColorOf p
    let e := errOf p nc
    (img.put_pixel_checked x y nc).bind fun i1 =>
      (if x + 1 < w then
          (i1.get_pixel_checked (x + 1) y).bind fun nb =>
            i1.put_pixel_checked (x + 1) y (addErr nb e 7)
        else some i1).bind fun i2 =>
      (if 0 < x ∧ y + 1 < h then
          (i2.get_pixel_checked (x - 1) (y + 1)).bind fun nb =>
            i2.put_pixel_checked (x - 1) (y + 1) (addErr nb e 3)
        else some i2).bind fun i3 =>
      (if y + 1 < h then
          (i3.get_pixel_checked x (y + 1)).bind fun nb =>
            i3.put_pixel_checked x (y + 1) (addErr nb e 5)
        else some i3).bind fun i4 =>
      (if x + 1 < w ∧ y + 1 < h then
          (i4.get_pixel_checked (x + 1) (y + 1)).bind fun nb =>
            i4.put_pixel_checked (x + 1) (y + 1) (addErr nb e 1)
        else some i4)

/-- Bounds-checked version of `ditherRow`. -/
def ditherRowChecked (w h : Nat) (img : RgbImage) (y : Nat) : Option RgbImage :=
  (List.range w).foldl
    (fun acc x => acc.bind fun im => ditherStepChecked w h im x y) (some img)

/-- Bounds-checked version of `ditherCore`. -/
def ditherCoreChecked (img : RgbImage) : Option RgbImage :=
  (List.range img.height).foldl
    (fun acc y => acc.bind fun im => ditherRowChecked img.width img.height im y)
    (some img)

/-! ### Spec-side restatement of the dithering step (for the refinement claim)

`ditherSpecStep` is written from the words of spec §4.3, NOT from the
source: average intensity as the exact rational `(r + g + b) / 3`
compared against `128.0`; the four diffusion targets given as a list of
signed offsets with their weights, each applied only when the target
coordinate is in bounds and skipped otherwise. -/

/-- Spec §4.3 step 2-3: `new_color = white if average > 128.0, else black`,
with `average = (P.r + P.g + P.b) / 3` as an exact rational. -/
def specClassify (p : Rgb) : Rgb :=
  if (128 : ℚ) < ((p.r : ℚ) + (p.g : ℚ) + (p.b : ℚ)) / 3 then WHITE else BLACK

/-- Spec §4.3 step 6: the diffusion targets as signed offsets with their
numerators over 16: `(x+1, y) ↦ 7`, `(x-1, y+1) ↦ 3`, `(x, y+1) ↦ 5`,
`(x+1, y+1) ↦ 1`. -/
def specTargets : List (Int × Int × Int) := [(1, 0, 7), (-1, 1, 3), (0, 1, 5), (1, 1, 1)]

/-- Spec §4.3 per-pixel algorithm: classify, overwrite, then diffuse the
per-channel error (original minus new value) into each in-bounds target,
skipping out-of-bounds targets. -/
def ditherSpecStep (w h : Nat) (img : RgbImage) (x y : Nat) : RgbImage :=
  let p := img.get_pixel x y
  let nc := specClassify p
  let e := errOf p nc
  specTargets.foldl
    (fun im t =>
      let nx := (x : Int) + t.1
      let ny := (y : Int) + t.2.1
      if 0 ≤ nx ∧ nx < (w : Int) ∧ 0 ≤ ny ∧ ny < (h : Int) then
        im.put_pixel nx.toNat ny.toNat (addErr (im.get_pixel nx.toNat ny.toNat) e t.2.2)
      else im)
    (img.put_pixel x y nc)

/-- Spec §4.3 control flow: row-major sweep, all of row `y` before row
`y+1`, left to right within a row. -/
def ditherSpec (img : RgbImage) : RgbImage :=
  (List.range img.height).foldl
    (fun im y =>
      (List.range img.width).foldl
        (fun im2 x => ditherSpecStep img.width img.height im2 x y) im)
    img

/-! ## Concrete rasters used as witnesses and counterexamples -/

/-- A uniform raster: every pixel equal to `c`. -/
def uniformRaster (w h : Nat) (c : Rgb) : RgbImage := ⟨w, h, fun _ _ => c⟩

/-- The uniform mid-grey raster of the dithering claims. -/
def greyRaster (w h : Nat) : RgbImage := uniformRaster w h GREY

/-- A 2×1 raster engineered so that diffusion pushes a channel above 255:
pixel (0,0) is `(255,0,0)` (classified black, red error 255) and pixel
(1,0) is `(200,0,0)` (receiving `200 + 255·7/16 = 311.5625`). -/
def overflowRaster : RgbImage :=
  ⟨2, 1, fun x _ => if x = 0 then ⟨255, 0, 0⟩ else ⟨200, 0, 0⟩⟩

/-- A 1×1 raster holding a single non-black pixel. -/
def onePixelRaster : RgbImage := ⟨1, 1, fun _ _ => ⟨200, 30, 40⟩⟩

/-- Does the raster contain color `c` at some in-bounds coordinate?
(executable, used to state concrete counterexamples). -/
def RgbImage.hasColor (img : RgbImage) (c : Rgb) : Bool :=
  (List.range img.height).any fun b =>
    (List.range img.width).any fun a => decide (img.get_pixel a b = c)

/-! ## Generic facts about the per-pixel double loop -/

theorem foldl_width_eq {β : Type} (f : RgbImage → β → RgbImage)
    (hf : ∀ im x, (f im x).width = im.width) (l : List β) :
    ∀ img : RgbImage, (l.foldl f img).width = img.width := by
  induction l with
  | nil => intro img; rfl
  | cons c t ih => intro img; rw [List.foldl_cons, ih, hf]

theorem foldl_height_eq {β : Type} (f : RgbImage → β → RgbImage)
    (hf : ∀ im x, (f im x).height = im.height) (l : List β) :
    ∀ img : RgbImage, (l.foldl f img).height = img.height := by
  induction l with
  | nil => intro img; rfl
  | cons c t ih => intro img; rw [List.foldl_cons, ih, hf]

theorem mapPixelAt_inner_get (f : Rgb → Rgb) (x a b : Nat) :
    ∀ (n : Nat) (img : RgbImage),
      ((List.range n).foldl (fun im2 y => mapPixelAt f im2 x y) img).get_pixel a b =
        if a = x ∧ b < n then f (img.get_pixel a b) else img.get_pixel a b := by
  intro n
  induction n with
  | zero => intro img; simp
  | succ m ih =>
    intro img
    rw [List.range_succ, List.foldl_append, List.foldl_cons, List.foldl_nil,
        mapPixelAt, get_put_pixel]
    by_cases h1 : a = x ∧ b = m
    · obtain ⟨rfl, rfl⟩ := h1
      rw [if_pos ⟨rfl, rfl⟩, ih, if_neg (by omega), if_pos ⟨rfl, by omega⟩]
    · rw [if_neg h1, ih]
      by_cases h2 : a = x ∧ b < m
      · rw [if_pos h2, if_pos ⟨h2.1, by omega⟩]
      · rw [if_neg h2, if_neg (by omega)]

theorem pixelMapCore_fold_get (f : Rgb → Rgb) (hgt : Nat) (a b : Nat) :
    ∀ (w : Nat) (img : RgbImage),
      ((List.range w).foldl
        (fun im x => (List.range hgt).foldl (fun im2 y => mapPixelAt f im2 x y) im)
        img).get_pixel a b =
      if a < w ∧ b < hgt then f (img.get_pixel a b) else img.get_pixel a b := by
  intro w
  induction w with
  | zero => intro img; simp
  | succ m ih =>
    intro img
    rw [List.range_succ, List.foldl_append, List.foldl_cons, List.foldl_nil,
        mapPixelAt_inner_get, ih]
    by_cases h1 : a = m ∧ b < hgt
    · rw [if_pos h1, if_neg (by omega), if_pos ⟨by omega, h1.2⟩]
    · by_cases h2 : a < m ∧ b < hgt
      · rw [if_neg h1, if_pos h2, if_pos ⟨by omega, h2.2⟩]
      · rw [if_neg h1, if_neg h2, if_neg (by omega)]

theorem pixelMapCore_get (f : Rgb → Rgb) (img : RgbImage) (a b : Nat) :
    (pixelMapCore f img).get_pixel a b =
      if a < img.width ∧ b < img.height then f (img.get_pixel a b)
      else img.get_pixel a b :=
  pixelMapCore_fold_get f img.height a b img.width img

theorem mapPixelAt_width (f : Rgb → Rgb) (img : RgbImage) (x y : Nat) :
    (mapPixelAt f img x y).width = img.width := rfl

theorem mapPixelAt_height (f : Rgb → Rgb) (img : RgbImage) (x y : Nat) :
    (mapPixelAt f img x y).height = img.height := rfl

theorem pixelMapCore_width (f : Rgb → Rgb) (img : RgbImage) :
    (pixelMapCore f img).width = img.width := by
  unfold pixelMapCore
  apply foldl_width_eq
  intro im x
  apply foldl_width_eq
  intro im2 y
  rfl

theorem pixelMapCore_height (f : Rgb → Rgb) (img : RgbImage) :
    (pixelMapCore f img).height = img.height := by
  unfold pixelMapCore
  apply foldl_height_eq
  intro im x
  apply foldl_height_eq
  intro im2 y
  rfl

theorem seuilCore_width (img : RgbImage) : (seuilCore img).width = img.width :=
  pixelMapCore_width _ img

theorem seuilCore_height (img : RgbImage) : (seuilCore img).height = img.height :=
  pixelMapCore_height _ img

theorem paletteCore_width (img : RgbImage) (n : Nat) :
    (paletteCore img n).width = img.width := pixelMapCore_width _ img

theorem paletteCore_height (img : RgbImage) (n : Nat) :
    (paletteCore img n).height = img.height := pixelMapCore_height _ img

/-! ## Facts about the threshold classification -/

theorem seuilPixel_cases (p : Rgb) : seuilPixel p = WHITE ∨ seuilPixel p = BLACK := by
  unfold seuilPixel; split
  · exact Or.inl rfl
  · exact Or.inr rfl

theorem seuilPixel_idem (p : Rgb) : seuilPixel (seuilPixel p) = seuilPixel p := by
  rcases seuilPixel_cases p with hcl | hcl <;> rw [hcl] <;> decide

/-! ## Characterization of the nearest-color scan -/

theorem bestColor_run (p : Rgb) :
    ∀ (l : List Rgb) (bd : Int) (c0 : Rgb),
      (l.foldl (bestColorStep p) (some bd, c0) = (some bd, c0)
        ∧ ∀ j < l.length, bd ≤ distance (l.getD j BLACK) p)
      ∨ (∃ i < l.length,
          l.foldl (bestColorStep p) (some bd, c0)
            = (some (distance (l.getD i BLACK) p), l.getD i BLACK)
          ∧ distance (l.getD i BLACK) p < bd
          ∧ (∀ j < l.length, distance (l.getD i BLACK) p ≤ distance (l.getD j BLACK) p)
          ∧ (∀ j < i, distance (l.getD i BLACK) p < distance (l.getD j BLACK) p)) := by
  intro l
  induction l with
  | nil =>
    intro bd c0
    left
    exact ⟨rfl, fun j hj => absurd hj (Nat.not_lt_zero j)⟩
  | cons c t ih =>
    intro bd c0
    rw [List.foldl_cons]
    by_cases hc : distance c p < bd
    · have hstep : bestColorStep p (some bd, c0) c = (some (distance c p), c) := by
        simp [bestColorStep, hc]
      rw [hstep]
      rcases ih (distance c p) c with ⟨heq, hall⟩ | ⟨i, hi, heq, hlt, hmin, hfirst⟩
      · right
        refine ⟨0, by simp, by simpa using heq, by simpa using hc, ?_, ?_⟩
        · intro j hj
          cases j with
          | zero => simp
          | succ k => simpa using hall k (by simpa using hj)
        · intro j hj
          exact absurd hj (Nat.not_lt_zero j)
      · right
        refine ⟨i + 1, by simpa using hi, by simpa using heq, ?_, ?_, ?_⟩
        · simpa using lt_trans hlt hc
        · intro j hj
          cases j with
          | zero => simpa using le_of_lt hlt
          | succ k => simpa using hmin k (by simpa using hj)
        · intro j hj
          cases j with
          | zero => simpa using hlt
          | succ k => simpa using hfirst k (by omega)
    · have hstep : bestColorStep p (some bd, c0) c = (some bd, c0) := by
        simp [bestColorStep, hc]
      rw [hstep]
      rcases ih bd c0 with ⟨heq, hall⟩ | ⟨i, hi, heq, hlt, hmin, hfirst⟩
      · left
        refine ⟨heq, ?_⟩
        intro j hj
        cases j with
        | zero => simpa using not_lt.mp hc
        | succ k => simpa using hall k (by simpa using hj)
      · right
        refine ⟨i + 1, by simpa using hi, by simpa using heq, ?_, ?_, ?_⟩
        · simpa using hlt
        · intro j hj
          cases j with
          | zero => simpa using le_of_lt (lt_of_lt_of_le hlt (not_lt.mp hc))
          | succ k => simpa using hmin k (by simpa using hj)
        · intro j hj
          cases j with
          | zero => simpa using lt_of_lt_of_le hlt (not_lt.mp hc)
          | succ k => simpa using hfirst k (by omega)

theorem bestColor_first_argmin (pal : List Rgb) (p : Rgb) (h : pal ≠ []) :
    ∃ i < pal.length, bestColor pal p = pal.getD i BLACK
      ∧ (∀ j < pal.length,
          distance (pal.getD i BLACK) p ≤ distance (pal.getD j BLACK) p)
      ∧ (∀ j < i,
          distance (pal.getD i BLACK) p < distance (pal.getD j BLACK) p) := by
  match pal, h with
  | c :: t, _ =>
    unfold bestColor
    rw [List.foldl_cons]
    have hstep : bestColorStep p (none, BLACK) c = (some (distance c p), c) := by
      simp [bestColorStep]
    rw [hstep]
    rcases bestColor_run p t (distance c p) c with ⟨heq, hall⟩ | ⟨i, hi, heq, hlt, hmin, hfirst⟩
    · refine ⟨0, by simp, by rw [heq]; simp, ?_, ?_⟩
      · intro j hj
        cases j with
        | zero => simp
        | succ k => simpa using hall k (by simpa using hj)
      · intro j hj
        exact absurd hj (Nat.not_lt_zero j)
    · refine ⟨i + 1, by simpa using hi, by rw [heq]; simp, ?_, ?_⟩
      · intro j hj
        cases j with
        | zero => simpa using le_of_lt hlt
        | succ k => simpa using hmin k (by simpa using hj)
      · intro j hj
        cases j with
        | zero => simpa using hlt
        | succ k => simpa using hfirst k (by omega)

theorem activePalette_ne_nil (n : Nat) (hn : 0 < n) : activePalette n ≠ [] := by
  apply List.ne_nil_of_length_pos
  unfold activePalette
  rw [List.length_take]
  have h9 : palette_registry.length = 9 := by decide
  rw [h9]
  omega

/-! ## Dimension preservation for the dithering transform -/

theorem ditherStep_width (w h : Nat) (img : RgbImage) (x y : Nat) :
    (ditherStep w h img x y).width = img.width := by
  simp only [ditherStep]
  split_ifs <;> simp [diffuseAt]

theorem ditherStep_height (w h : Nat) (img : RgbImage) (x y : Nat) :
    (ditherStep w h img x y).height = img.height := by
  simp only [ditherStep]
  split_ifs <;> simp [diffuseAt]

theorem ditherRow_width (w h : Nat) (img : RgbImage) (y : Nat) :
    (ditherRow w h img y).width = img.width := by
  unfold ditherRow
  apply foldl_width_eq
  intro im x
  exact ditherStep_width w h im x y

theorem ditherRow_height (w h : Nat) (img : RgbImage) (y : Nat) :
    (ditherRow w h img y).height = img.height := by
  unfold ditherRow
  apply foldl_height_eq
  intro im x
  exact ditherStep_height w h im x y

theorem ditherCore_width (img : RgbImage) : (ditherCore img).width = img.width := by
  unfold ditherCore
  apply foldl_width_eq
  intro im y
  exact ditherRow_width img.width img.height im y

theorem ditherCore_height (img : RgbImage) : (ditherCore img).height = img.height := by
  unfold ditherCore
  apply foldl_height_eq
  intro im y
  exact ditherRow_height img.width img.height im y

/-! ## Claims about the threshold and palette transforms -/

/-- Claim C7: every pixel of the threshold transform's output is pure
black or pure white; an all-white input yields an all-white output and an
all-black input yields an all-black output. -/
theorem C7_seuil_output_black_or_white (img : RgbImage) :
    (∀ a < img.width, ∀ b < img.height,
        (seuilCore img).get_pixel a b = BLACK ∨ (seuilCore img).get_pixel a b = WHITE)
    ∧ ((∀ a < img.width, ∀ b < img.height, img.get_pixel a b = WHITE) →
        ∀ a < img.width, ∀ b < img.height, (seuilCore img).get_pixel a b = WHITE)
    ∧ ((∀ a < img.width, ∀ b < img.height, img.get_pixel a b = BLACK) →
        ∀ a < img.width, ∀ b < img.height, (seuilCore img).get_pixel a b = BLACK) := by
  refine ⟨?_, ?_, ?_⟩
  · intro a ha b hb
    rw [seuilCore, pixelMapCore_get, if_pos ⟨ha, hb⟩]
    exact (seuilPixel_cases _).symm
  · intro hw a ha b hb
    rw [seuilCore, pixelMapCore_get, if_pos ⟨ha, hb⟩, hw a ha b hb]
    decide
  · intro hw a ha b hb
    rw [seuilCore, pixelMapCore_get, if_pos ⟨ha, hb⟩, hw a ha b hb]
    decide

/-- Witness for C7 at a concrete 1×1 all-white raster. -/
theorem C7_seuil_output_black_or_white_witness :
    (seuilCore (uniformRaster 1 1 WHITE)).get_pixel 0 0 = WHITE :=
  (C7_seuil_output_black_or_white (uniformRaster 1 1 WHITE)).2.1
    (fun _ _ _ _ => rfl) 0 (by decide) 0 (by decide)

/-- Claim C8: the threshold transform is deterministic (it is a pure
function of the raster) and idempotent: applying it to its own output
yields the same image. -/
theorem C8_seuil_idempotent (img : RgbImage) :
    seuilCore (seuilCore img) = seuilCore img := by
  apply RgbImage.eq_of_fields
  · exact seuilCore_width (seuilCore img)
  · exact seuilCore_height (seuilCore img)
  · intro a b
    show (seuilCore (seuilCore img)).get_pixel a b = (seuilCore img).get_pixel a b
    rw [show seuilCore (seuilCore img) = pixelMapCore seuilPixel (seuilCore img) from rfl,
        pixelMapCore_get, seuilCore_width, seuilCore_height]
    by_cases hin : a < img.width ∧ b < img.height
    · rw [if_pos hin, seuilCore, pixelMapCore_get, if_pos hin, seuilPixel_idem]
    · rw [if_neg hin]

/-- Claim C9: all three transforms return `Ok` of a raster with exactly
the width and height of the input raster. -/
theorem C9_dimensions_preserved (img : RgbImage) (n : Nat) :
    (∃ o, modify_image_seuil img = Except.ok o
        ∧ o.width = img.width ∧ o.height = img.height)
    ∧ (∃ o, modify_image_palette img n = Except.ok o
        ∧ o.width = img.width ∧ o.height = img.height)
    ∧ (∃ o, modify_image_dithering img = Except.ok o
        ∧ o.width = img.width ∧ o.height = img.height) :=
  ⟨⟨seuilCore img, rfl, seuilCore_width img, seuilCore_height img⟩,
   ⟨paletteCore img n, rfl, paletteCore_width img n, paletteCore_height img n⟩,
   ⟨ditherCore img, rfl, ditherCore_width img, ditherCore_height img⟩⟩

/-- Claim C1 (counterexample): with `n_couleurs = 0` the palette transform
does NOT fail with a validation error: on a concrete 1×1 raster it returns
`Ok` and has transformed the pixel (from `(200,30,40)` to `BLACK`). -/
theorem C1_palette_zero_succeeds_counterexample :
    modify_image_palette onePixelRaster 0 = Except.ok (paletteCore onePixelRaster 0)
    ∧ onePixelRaster.get_pixel 0 0 = ⟨200, 30, 40⟩
    ∧ (paletteCore onePixelRaster 0).get_pixel 0 0 = BLACK :=
  ⟨rfl, rfl, by decide⟩

/-- Claim C1 (amended): `n_couleurs = 0` is not rejected; the palette
transform succeeds (there is no validation in `modify_image_palette` or in
`main`), and with the empty active palette the inner scan never updates
`best_color`, so every pixel of the output is `BLACK`, the initial value
of `best_color`. -/
theorem C1_palette_zero_all_black (img : RgbImage) :
    modify_image_palette img 0 = Except.ok (paletteCore img 0)
    ∧ ∀ a < img.width, ∀ b < img.height,
        (paletteCore img 0).get_pixel a b = BLACK := by
  refine ⟨rfl, fun a ha b hb => ?_⟩
  rw [paletteCore, pixelMapCore_get, if_pos ⟨ha, hb⟩]
  rfl

/-- Witness for the amended C1 at a concrete 1×1 raster. -/
theorem C1_palette_zero_all_black_witness :
    (paletteCore onePixelRaster 0).get_pixel 0 0 = BLACK :=
  (C1_palette_zero_all_black onePixelRaster).2 0 (by decide) 0 (by decide)

/-- Claim C6: the palette transform's nearest-color scan selects, among
the active palette colors at minimal squared-Euclidean distance from the
pixel, the one occurring earliest in registry order (the comparison is a
strict `<` against the best distance so far, so an equal distance never
displaces the earlier color).  Stated as: the selected color sits at the
first index attaining the minimum distance. -/
theorem C6_palette_tie_first_wins (n : Nat) (p : Rgb) (hn : 0 < n) :
    ∃ i < (activePalette n).length,
      bestColor (activePalette n) p = (activePalette n).getD i BLACK
      ∧ (∀ j < (activePalette n).length,
          distance ((activePalette n).getD i BLACK) p
            ≤ distance ((activePalette n).getD j BLACK) p)
      ∧ (∀ j < i,
          distance ((activePalette n).getD i BLACK) p
            < distance ((activePalette n).getD j BLACK) p) :=
  bestColor_first_argmin (activePalette n) p (activePalette_ne_nil n hn)

/-- Witness for C6 with the two-color active palette and a white pixel. -/
theorem C6_palette_tie_first_wins_witness :
    ∃ i < (activePalette 2).length,
      bestColor (activePalette 2) WHITE = (activePalette 2).getD i BLACK
      ∧ (∀ j < (activePalette 2).length,
          distance ((activePalette 2).getD i BLACK) WHITE
            ≤ distance ((activePalette 2).getD j BLACK) WHITE)
      ∧ (∀ j < i,
          distance ((activePalette 2).getD i BLACK) WHITE
            < distance ((activePalette 2).getD j BLACK) WHITE) :=
  C6_palette_tie_first_wins 2 WHITE (by decide)

/-- Claim C2 (counterexample): at a concrete input the diffusion pushes a
channel above 255 (the exact value is `311.5625 = 4985/16`), and the Rust
float-to-integer cast SATURATES the channel to 255; it does not wrap to
`311 % 256 = 55` as the claim asserts. -/
theorem C2_wraparound_counterexample :
    (ditherStep 2 1 overflowRaster 0 0).get_pixel 1 0 = ⟨255, 0, 0⟩
    ∧ castU8of16 (16 * 200 + 255 * 7) = 255
    ∧ (((16 * 200 + 255 * 7) / 16) % 256 : Nat) = 55
    ∧ (255 : Nat) ≠ 55 :=
  ⟨by decide, by decide, by decide, by decide⟩

/-- Claim C2 (amended): the per-channel error diffusion can indeed push the
exact value outside the byte range, but Rust's float-to-int `as` cast
(modelled by `castU8of16`) saturates: the stored channel is never above
255, is exactly 255 whenever the exact scaled value is ≥ 4096 (i.e. the
real value is ≥ 256), and is 0 whenever the exact value is negative. -/
theorem C2_saturating_cast (nb : Nat) (e k : Int) :
    castU8of16 (16 * (nb : Int) + e * k) ≤ 255
    ∧ (4096 ≤ 16 * (nb : Int) + e * k →
        castU8of16 (16 * (nb : Int) + e * k) = 255)
    ∧ (16 * (nb : Int) + e * k < 0 →
        castU8of16 (16 * (nb : Int) + e * k) = 0) := by
  unfold castU8of16
  refine ⟨Nat.min_le_right _ _, fun h4 => ?_, fun hneg => ?_⟩
  · omega
  · omega

/-- Witness for the amended C2 at the concrete overflowing input
`200 + 255 · 7/16`. -/
theorem C2_saturating_cast_witness :
    castU8of16 (16 * ((200 : Nat) : Int) + 255 * 7) = 255 :=
  (C2_saturating_cast 200 255 7).2.1 (by decide)

/-! ## Effect of one dithering step on individual pixels -/

theorem guarded_diffuse_get_ne (c : Prop) [Decidable c] (im : RgbImage)
    (e : Int × Int × Int) (k : Int) (u v a b : Nat)
    (hne : c → ¬(a = u ∧ b = v)) :
    (if c then diffuseAt im e k u v else im).get_pixel a b = im.get_pixel a b := by
  split_ifs with hc
  · rw [diffuseAt, get_put_pixel, if_neg (hne hc)]
  · rfl

theorem guarded_diffuse_get_hit (c : Prop) [Decidable c] (im : RgbImage)
    (e : Int × Int × Int) (k : Int) (u v : Nat) (hc : c) :
    (if c then diffuseAt im e k u v else im).get_pixel u v =
      addErr (im.get_pixel u v) e k := by
  rw [if_pos hc, diffuseAt, get_put_pixel, if_pos ⟨rfl, rfl⟩]

theorem ditherStep_get_earlier (w h : Nat) (img : RgbImage) (x y a b : Nat)
    (hab : b < y ∨ (b = y ∧ a < x)) :
    (ditherStep w h img x y).get_pixel a b = img.get_pixel a b := by
  unfold ditherStep
  rw [guarded_diffuse_get_ne (x + 1 < w ∧ y + 1 < h) _ _ 1 (x + 1) (y + 1) a b (by omega),
      guarded_diffuse_get_ne (y + 1 < h) _ _ 5 x (y + 1) a b (by omega),
      guarded_diffuse_get_ne (0 < x ∧ y + 1 < h) _ _ 3 (x - 1) (y + 1) a b (by omega),
      guarded_diffuse_get_ne (x + 1 < w) _ _ 7 (x + 1) y a b (by omega),
      get_put_pixel, if_neg (by omega)]

theorem ditherStep_get_self (w h : Nat) (img : RgbImage) (x y : Nat) :
    (ditherStep w h img x y).get_pixel x y = newColorOf (img.get_pixel x y) := by
  unfold ditherStep
  rw [guarded_diffuse_get_ne (x + 1 < w ∧ y + 1 < h) _ _ 1 (x + 1) (y + 1) x y (by omega),
      guarded_diffuse_get_ne (y + 1 < h) _ _ 5 x (y + 1) x y (by omega),
      guarded_diffuse_get_ne (0 < x ∧ y + 1 < h) _ _ 3 (x - 1) (y + 1) x y (by omega),
      guarded_diffuse_get_ne (x + 1 < w) _ _ 7 (x + 1) y x y (by omega),
      get_put_pixel, if_pos ⟨rfl, rfl⟩]

theorem ditherStep_get_right (w h : Nat) (img : RgbImage) (x y : Nat)
    (hx : x + 1 < w) :
    (ditherStep w h img x y).get_pixel (x + 1) y =
      addErr (img.get_pixel (x + 1) y)
        (errOf (img.get_pixel x y) (newColorOf (img.get_pixel x y))) 7 := by
  unfold ditherStep
  rw [guarded_diffuse_get_ne (x + 1 < w ∧ y + 1 < h) _ _ 1 (x + 1) (y + 1) (x + 1) y (by omega),
      guarded_diffuse_get_ne (y + 1 < h) _ _ 5 x (y + 1) (x + 1) y (by omega),
      guarded_diffuse_get_ne (0 < x ∧ y + 1 < h) _ _ 3 (x - 1) (y + 1) (x + 1) y (by omega),
      guarded_diffuse_get_hit (x + 1 < w) _ _ 7 (x + 1) y hx,
      get_put_pixel, if_neg (by omega)]

theorem ditherStep_get_below (w h : Nat) (img : RgbImage) (x y : Nat)
    (hy : y + 1 < h) :
    (ditherStep w h img x y).get_pixel x (y + 1) =
      addErr (img.get_pixel x (y + 1))
        (errOf (img.get_pixel x y) (newColorOf (img.get_pixel x y))) 5 := by
  unfold ditherStep
  rw [guarded_diffuse_get_ne (x + 1 < w ∧ y + 1 < h) _ _ 1 (x + 1) (y + 1) x (y + 1) (by omega),
      guarded_diffuse_get_hit (y + 1 < h) _ _ 5 x (y + 1) hy,
      guarded_diffuse_get_ne (0 < x ∧ y + 1 < h) _ _ 3 (x - 1) (y + 1) x (y + 1) (by omega),
      guarded_diffuse_get_ne (x + 1 < w) _ _ 7 (x + 1) y x (y + 1) (by omega),
      get_put_pixel, if_neg (by omega)]

/-! ## The row-major sweep never revisits a classified pixel -/

theorem newColorOf_cases (p : Rgb) : newColorOf p = BLACK ∨ newColorOf p = WHITE := by
  unfold newColorOf
  split
  · exact Or.inr rfl
  · exact Or.inl rfl

theorem ditherCols_fold_earlier (w h y a b : Nat) :
    ∀ (n s : Nat) (img : RgbImage), (b < y ∨ (b = y ∧ a < s)) →
      ((List.range' s n).foldl (fun im x => ditherStep w h im x y) img).get_pixel a b
        = img.get_pixel a b := by
  intro n
  induction n with
  | zero => intro s img hab; rfl
  | succ m ih =>
    intro s img hab
    rw [List.range'_succ, List.foldl_cons, ih (s + 1) _ (by omega),
        ditherStep_get_earlier w h img s y a b hab]

theorem ditherRows_fold_earlier (w h a b : Nat) :
    ∀ (n s : Nat) (img : RgbImage), b < s →
      ((List.range' s n).foldl (fun im y => ditherRow w h im y) img).get_pixel a b
        = img.get_pixel a b := by
  intro n
  induction n with
  | zero => intro s img hb; rfl
  | succ m ih =>
    intro s img hb
    rw [List.range'_succ, List.foldl_cons, ih (s + 1) _ (by omega)]
    unfold ditherRow
    rw [List.range_eq_range']
    exact ditherCols_fold_earlier w h s a b w 0 img (by omega)

theorem ditherCols_fold_bw (w h y : Nat) :
    ∀ (n s : Nat) (img : RgbImage) (a : Nat), s ≤ a → a < s + n →
      ((List.range' s n).foldl (fun im x => ditherStep w h im x y) img).get_pixel a y = BLACK
      ∨ ((List.range' s n).foldl (fun im x => ditherStep w h im x y) img).get_pixel a y = WHITE := by
  intro n
  induction n with
  | zero => intro s img a h1 h2; exact absurd h2 (by omega)
  | succ m ih =>
    intro s img a h1 h2
    rw [List.range'_succ, List.foldl_cons]
    by_cases ha : a = s
    · subst ha
      rw [ditherCols_fold_earlier w h y a y m (a + 1) _ (by omega),
          ditherStep_get_self]
      exact newColorOf_cases _
    · exact ih (s + 1) _ a (by omega) (by omega)

theorem ditherRows_fold_bw (w h : Nat) :
    ∀ (n s : Nat) (img : RgbImage) (a b : Nat), a < w → s ≤ b → b < s + n →
      ((List.range' s n).foldl (fun im y => ditherRow w h im y) img).get_pixel a b = BLACK
      ∨ ((List.range' s n).foldl (fun im y => ditherRow w h im y) img).get_pixel a b = WHITE := by
  intro n
  induction n with
  | zero => intro s img a b ha h1 h2; exact absurd h2 (by omega)
  | succ m ih =>
    intro s img a b ha h1 h2
    rw [List.range'_succ, List.foldl_cons]
    by_cases hb : b = s
    · subst hb
      rw [ditherRows_fold_earlier w h a b m (b + 1) _ (by omega)]
      unfold ditherRow
      rw [List.range_eq_range']
      exact ditherCols_fold_bw w h b w 0 img a (by omega) (by omega)
    · exact ih (s + 1) _ a b ha (by omega) (by omega)

/-- Claim C5: every pixel of the dithering transform's output is pure
black or pure white: during the row-major sweep each visited pixel is set
to `newColorOf` (black or white), and error is only ever diffused into
coordinates strictly later in row-major order, so a classified pixel is
never modified again. -/
theorem C5_dither_output_black_or_white (img : RgbImage) :
    ∀ a < img.width, ∀ b < img.height,
      (ditherCore img).get_pixel a b = BLACK ∨ (ditherCore img).get_pixel a b = WHITE := by
  intro a ha b hb
  unfold ditherCore
  rw [List.range_eq_range']
  exact ditherRows_fold_bw img.width img.height img.height 0 img a b ha (by omega) (by omega)

/-- Witness for C5 at a concrete 2×2 mid-grey raster. -/
theorem C5_dither_output_black_or_white_witness :
    (ditherCore (greyRaster 2 2)).get_pixel 1 1 = BLACK
    ∨ (ditherCore (greyRaster 2 2)).get_pixel 1 1 = WHITE :=
  C5_dither_output_black_or_white (greyRaster 2 2) 1 (by decide) 1 (by decide)

/-! ## The uniform mid-grey dithering claims -/

theorem greyRaster_width (w h : Nat) : (greyRaster w h).width = w := rfl

theorem greyRaster_height (w h : Nat) : (greyRaster w h).height = h := rfl

/-- Claim C3 (counterexample): the 1×1 uniform mid-grey image is a uniform
mid-grey input whose dithering output contains NO white pixel: its single
pixel has average 127 ≤ 128, is classified black, and the quantization
error is discarded (no in-bounds neighbor), so the output is all black. -/
theorem C3_grey_single_pixel_counterexample :
    (ditherCore (greyRaster 1 1)).get_pixel 0 0 = BLACK
    ∧ (ditherCore (greyRaster 1 1)).hasColor WHITE = false
    ∧ (ditherCore (greyRaster 1 1)).hasColor BLACK = true :=
  ⟨by decide, by decide, by decide⟩

/-- Claim C3 (amended): for every uniform mid-grey input with at least two
pixels, the dithering output contains at least one pure black pixel (at
(0,0)) and at least one pure white pixel (at (1,0) if the image has at
least two columns, else at (0,1)): the first pixel is classified black,
and its diffused error (127 · 7/16 or 127 · 5/16) pushes the next visited
pixel's average above 128. -/
theorem C3_grey_two_pixels_black_white (w h : Nat) (hwh : 2 ≤ w * h) :
    (∃ a, ∃ b, a < w ∧ b < h ∧ (ditherCore (greyRaster w h)).get_pixel a b = BLACK)
    ∧ (∃ a, ∃ b, a < w ∧ b < h ∧ (ditherCore (greyRaster w h)).get_pixel a b = WHITE) := by
  rcases Nat.eq_zero_or_pos w with hw0 | hw1
  · subst hw0; rw [Nat.zero_mul] at hwh; omega
  rcases Nat.eq_zero_or_pos h with hh0 | hh1
  · subst hh0; rw [Nat.mul_zero] at hwh; omega
  by_cases hw2 : 2 ≤ w
  · obtain ⟨m, rfl⟩ : ∃ m, w = m + 2 := ⟨w - 2, by omega⟩
    obtain ⟨k, rfl⟩ : ∃ k, h = k + 1 := ⟨h - 1, by omega⟩
    have e0 : ditherCore (greyRaster (m + 2) (k + 1))
        = (List.range' 1 k).foldl (fun im y => ditherRow (m + 2) (k + 1) im y)
            (ditherRow (m + 2) (k + 1) (greyRaster (m + 2) (k + 1)) 0) := by
      unfold ditherCore
      rw [greyRaster_width, greyRaster_height, List.range_eq_range']
      rw [show List.range' 0 (k + 1) = 0 :: List.range' 1 k by simp [List.range'_succ]]
      rw [List.foldl_cons]
    have e1 : ditherRow (m + 2) (k + 1) (greyRaster (m + 2) (k + 1)) 0
        = (List.range' 2 m).foldl (fun im x => ditherStep (m + 2) (k + 1) im x 0)
            (ditherStep (m + 2) (k + 1)
              (ditherStep (m + 2) (k + 1) (greyRaster (m + 2) (k + 1)) 0 0) 1 0) := by
      unfold ditherRow
      rw [List.range_eq_range']
      rw [show List.range' 0 (m + 2) = 0 :: 1 :: List.range' 2 m by simp [List.range'_succ]]
      rw [List.foldl_cons, List.foldl_cons]
    have key0 : (ditherCore (greyRaster (m + 2) (k + 1))).get_pixel 0 0 = BLACK := by
      rw [e0, ditherRows_fold_earlier (m + 2) (k + 1) 0 0 k 1 _ (by omega), e1,
          ditherCols_fold_earlier (m + 2) (k + 1) 0 0 0 m 2 _ (by omega),
          ditherStep_get_earlier (m + 2) (k + 1) _ 1 0 0 0 (by omega),
          ditherStep_get_self]
      show newColorOf GREY = BLACK
      decide
    have key1 : (ditherCore (greyRaster (m + 2) (k + 1))).get_pixel 1 0 = WHITE := by
      rw [e0, ditherRows_fold_earlier (m + 2) (k + 1) 1 0 k 1 _ (by omega), e1,
          ditherCols_fold_earlier (m + 2) (k + 1) 0 1 0 m 2 _ (by omega),
          ditherStep_get_self, ditherStep_get_right (m + 2) (k + 1) _ 0 0 (by omega)]
      show newColorOf (addErr GREY (errOf GREY (newColorOf GREY)) 7) = WHITE
      decide
    exact ⟨⟨0, 0, by omega, by omega, key0⟩, ⟨1, 0, by omega, by omega, key1⟩⟩
  · obtain rfl : w = 1 := by omega
    rw [Nat.one_mul] at hwh
    obtain ⟨k, rfl⟩ : ∃ k, h = k + 2 := ⟨h - 2, by omega⟩
    have f0 : ditherCore (greyRaster 1 (k + 2))
        = (List.range' 2 k).foldl (fun im y => ditherRow 1 (k + 2) im y)
            (ditherRow 1 (k + 2) (ditherRow 1 (k + 2) (greyRaster 1 (k + 2)) 0) 1) := by
      unfold ditherCore
      rw [greyRaster_width, greyRaster_height, List.range_eq_range']
      rw [show List.range' 0 (k + 2) = 0 :: 1 :: List.range' 2 k by simp [List.range'_succ]]
      rw [List.foldl_cons, List.foldl_cons]
    have frow : ∀ (im : RgbImage) (y : Nat),
        ditherRow 1 (k + 2) im y = ditherStep 1 (k + 2) im 0 y := by
      intro im y
      unfold ditherRow
      rw [show List.range 1 = [0] from by decide, List.foldl_cons, List.foldl_nil]
    have key0 : (ditherCore (greyRaster 1 (k + 2))).get_pixel 0 0 = BLACK := by
      rw [f0, ditherRows_fold_earlier 1 (k + 2) 0 0 k 2 _ (by omega), frow, frow,
          ditherStep_get_earlier 1 (k + 2) _ 0 1 0 0 (by omega),
          ditherStep_get_self]
      show newColorOf GREY = BLACK
      decide
    have key1 : (ditherCore (greyRaster 1 (k + 2))).get_pixel 0 1 = WHITE := by
      rw [f0, ditherRows_fold_earlier 1 (k + 2) 0 1 k 2 _ (by omega), frow, frow,
          ditherStep_get_self, ditherStep_get_below 1 (k + 2) _ 0 0 (by omega)]
      show newColorOf (addErr GREY (errOf GREY (newColorOf GREY)) 5) = WHITE
      decide
    exact ⟨⟨0, 0, by omega, by omega, key0⟩, ⟨0, 1, by omega, by omega, key1⟩⟩

/-- Witness for the amended C3 at the concrete 2×1 mid-grey raster. -/
theorem C3_grey_two_pixels_black_white_witness :
    (∃ a, ∃ b, a < 2 ∧ b < 1 ∧ (ditherCore (greyRaster 2 1)).get_pixel a b = BLACK)
    ∧ (∃ a, ∃ b, a < 2 ∧ b < 1 ∧ (ditherCore (greyRaster 2 1)).get_pixel a b = WHITE) :=
  C3_grey_two_pixels_black_white 2 1 (by decide)

/-! ## Refinement: the dithering loop against the spec's per-pixel algorithm -/

theorem specClassify_eq (p : Rgb) : specClassify p = newColorOf p := by
  unfold specClassify newColorOf
  have hiff : ((128 : ℚ) < ((p.r : ℚ) + (p.g : ℚ) + (p.b : ℚ)) / 3)
      ↔ 384 < p.r + p.g + p.b := by
    rw [lt_div_iff₀ (by norm_num : (0 : ℚ) < 3)]
    constructor
    · intro hq; exact_mod_cast hq
    · intro hq; exact_mod_cast hq
  simp only [hiff]

theorem ditherSpecStep_eq (w h : Nat) (img : RgbImage) (x y : Nat)
    (hx : x < w) (hy : y < h) :
    ditherSpecStep w h img x y = ditherStep w h img x y := by
  unfold ditherSpecStep ditherStep
  simp only [specTargets, List.foldl_cons, List.foldl_nil, specClassify_eq]
  have e1 : (((x : Int) + 1)).toNat = x + 1 := by omega
  have e2 : (((y : Int) + 0)).toNat = y := by omega
  have e3 : (((y : Int) + 1)).toNat = y + 1 := by omega
  have e4 : (((x : Int) + -1)).toNat = x - 1 := by omega
  have e5 : (((x : Int) + 0)).toNat = x := by omega
  have c1 : (0 ≤ (x : Int) + 1 ∧ (x : Int) + 1 < (w : Int) ∧ 0 ≤ (y : Int) + 0
      ∧ (y : Int) + 0 < (h : Int)) ↔ x + 1 < w := by omega
  have c2 : (0 ≤ (x : Int) + -1 ∧ (x : Int) + -1 < (w : Int) ∧ 0 ≤ (y : Int) + 1
      ∧ (y : Int) + 1 < (h : Int)) ↔ (0 < x ∧ y + 1 < h) := by omega
  have c3 : (0 ≤ (x : Int) + 0 ∧ (x : Int) + 0 < (w : Int) ∧ 0 ≤ (y : Int) + 1
      ∧ (y : Int) + 1 < (h : Int)) ↔ (y + 1 < h) := by omega
  have c4 : (0 ≤ (x : Int) + 1 ∧ (x : Int) + 1 < (w : Int) ∧ 0 ≤ (y : Int) + 1
      ∧ (y : Int) + 1 < (h : Int)) ↔ (x + 1 < w ∧ y + 1 < h) := by omega
  simp only [c1, c2, c3, c4, e1, e2, e3, e4, e5, diffuseAt]

/-- Claim C4: the dithering transform coincides with the spec's §4.3
description: a row-major sweep which, at each pixel, classifies by the
exact rational average `(r+g+b)/3` against `128.0`, overwrites the pixel,
and adds the per-channel error (original minus new value) scaled by
7/16 to `(x+1,y)`, 3/16 to `(x-1,y+1)`, 5/16 to `(x,y+1)` and 1/16 to
`(x+1,y+1)`, skipping any out-of-bounds neighbor (`ditherSpec` is written
from the spec's words; `ditherCore` from the source). -/
theorem C4_dither_matches_spec (img : RgbImage) : ditherSpec img = ditherCore img := by
  unfold ditherSpec ditherCore
  apply List.foldl_ext
  intro im y hy
  unfold ditherRow
  apply List.foldl_ext
  intro im2 x hx
  exact ditherSpecStep_eq img.width img.height im2 x y
    (List.mem_range.mp hx) (List.mem_range.mp hy)

/-! ## Crash freedom for 1×1 dithering -/

/-- Claim C10: on a 1×1 raster the dithering transform performs no
out-of-bounds access: all four diffusion guards are false, so the checked
interpreter (where any out-of-bounds `get_pixel`/`put_pixel` aborts with
`none`, modelling the Rust panic) completes and returns exactly the
unchecked result; the single pixel's error is discarded. -/
theorem C10_dither_one_by_one_no_crash (img : RgbImage)
    (hw : img.width = 1) (hh : img.height = 1) :
    ditherCoreChecked img = some (ditherCore img) := by
  unfold ditherCoreChecked ditherCore ditherRowChecked ditherRow ditherStepChecked ditherStep
  rw [hw, hh]
  simp [RgbImage.get_pixel_checked, RgbImage.put_pixel_checked, RgbImage.get_pixel,
        hw, hh, List.range_succ, diffuseAt]

/-- Witness for C10 at the concrete 1×1 mid-grey raster. -/
theorem C10_dither_one_by_one_no_crash_witness :
    ditherCoreChecked (greyRaster 1 1) = some (ditherCore (greyRaster 1 1)) :=
  C10_dither_one_by_one_no_crash (greyRaster 1 1) rfl rfl
